/-
Verification of the StickerPrint job-execution and artifact pipeline.

This file shallowly embeds, in Lean 4, the parts of the StickerPrint
backend that the specification's claims are about:

  * the Generation Worker (`backend/app/services/image_generator.py`,
    `ImageGeneratorService.generate_images` and its throttle state),
  * the Artifact Cache (`backend/app/services/zip_generator.py`,
    `build_all_jobs_zip` / `invalidate_all_jobs_cache`),
  * the Queue Processor (`backend/app/routes/prompt_generator.py`,
    `queue_generated_file`, `process_next_in_queue`, the auto-trigger
    helper and `remove_from_prompt_queue`),
  * the cancel operation of the Job Orchestrator
    (`backend/app/routes/jobs.py`, `cancel_job`).

Python strings are modelled as Lean `String` with ASCII character
semantics, Python floats as exact rationals `ℚ`, the relational store
rows as Lean structures held in lists, the filesystem as an association
list from path to byte content, SHA-256 and the random jitter draw as
explicit function parameters, and the external image API as a stream of
per-call outcomes.
-/
import Mathlib

/-! ### Decimal rendering of naturals (Python `str(i)`) -/

/-- Little-endian decimal digits of a natural number, computed with explicit
fuel so that the definition reduces inside the kernel. -/
def digitsAux : Nat → Nat → List Nat
  | 0, _ => []
  | _ + 1, 0 => []
  | fuel + 1, n + 1 => (n + 1) % 10 :: digitsAux fuel ((n + 1) / 10)

/-- Little-endian decimal digits of a natural number. -/
def decDigits (n : Nat) : List Nat := digitsAux n n

lemma digitsAux_eq_digits : ∀ (fuel n : Nat), n ≤ fuel → digitsAux fuel n = Nat.digits 10 n := by
  intro fuel
  induction fuel with
  | zero =>
    intro n h
    have : n = 0 := Nat.le_zero.mp h
    subst this
    simp [digitsAux]
  | succ f ih =>
    intro n h
    match n with
    | 0 => simp [digitsAux]
    | m + 1 =>
      have hdiv : (m + 1) / 10 ≤ f := by
        have : (m + 1) / 10 < m + 1 := Nat.div_lt_self (Nat.succ_pos m) (by norm_num)
        omega
      rw [digitsAux, ih _ hdiv,
        Nat.digits_def' (by norm_num : (1 : Nat) < 10) (Nat.succ_pos m)]

lemma decDigits_eq_digits (n : Nat) : decDigits n = Nat.digits 10 n :=
  digitsAux_eq_digits n n le_rfl

/-- Decimal string of a natural number, most significant digit first:
the model of Python `str(i)`. -/
def natStr (n : Nat) : String :=
  if n = 0 then "0" else String.mk ((decDigits n).reverse.map Nat.digitChar)

/-- Left-pad a string with the character '0' to width `w`:
the model of Python `str.zfill(w)`. -/
def zfill (w : Nat) (s : String) : String :=
  if w ≤ s.length then s else String.mk (List.replicate (w - s.length) '0') ++ s

example : natStr 7 = "7" := by decide
example : natStr 120 = "120" := by decide
example : zfill 3 (natStr 7) = "007" := by decide
example : zfill 3 (natStr 1024) = "1024" := by decide

lemma digitChar_inj_lt10 : ∀ a < 10, ∀ b < 10, Nat.digitChar a = Nat.digitChar b → a = b := by
  decide

lemma digitChar_ne_zeroChar : ∀ a < 10, a ≠ 0 → Nat.digitChar a ≠ '0' := by
  decide

lemma map_digitChar_inj {l1 l2 : List Nat} (h1 : ∀ d ∈ l1, d < 10) (h2 : ∀ d ∈ l2, d < 10)
    (h : l1.map Nat.digitChar = l2.map Nat.digitChar) : l1 = l2 := by
  induction l1 generalizing l2 with
  | nil => cases l2 <;> simp_all
  | cons a t ih =>
    cases l2 with
    | nil => simp_all
    | cons b t2 =>
      simp only [List.map_cons, List.cons.injEq] at h
      have ha : a < 10 := h1 a (by simp)
      have hb : b < 10 := h2 b (by simp)
      have : a = b := digitChar_inj_lt10 a ha b hb h.1
      have ht : t = t2 := ih (fun d hd => h1 d (by simp [hd])) (fun d hd => h2 d (by simp [hd])) h.2
      simp [this, ht]

lemma natStr_data_pos {n : Nat} (hn : n ≠ 0) :
    (natStr n).data = ((Nat.digits 10 n).reverse).map Nat.digitChar := by
  simp [natStr, hn, decDigits_eq_digits]

lemma getLast_of_reverse_cons {L : List Nat} {c : Nat} {cs : List Nat}
    (h : L.reverse = c :: cs) (hne : L ≠ []) : L.getLast hne = c := by
  have hL : L = cs.reverse ++ [c] := by
    have := congrArg List.reverse h
    simpa using this
  subst hL
  exact List.getLast_append_singleton _

/-- The leading character of the decimal rendering of a positive number is
a nonzero digit character. -/
lemma natStr_head_ne_zeroChar {n : Nat} (hn : n ≠ 0) :
    ∃ c cs, (natStr n).data = c :: cs ∧ c ≠ '0' := by
  have hne : Nat.digits 10 n ≠ [] := Nat.digits_ne_nil_iff_ne_zero.mpr hn
  have hrevne : (Nat.digits 10 n).reverse ≠ [] := by simp [hne]
  obtain ⟨c, cs, hcs⟩ := List.exists_cons_of_ne_nil hrevne
  refine ⟨Nat.digitChar c, cs.map Nat.digitChar, ?_, ?_⟩
  · rw [natStr_data_pos hn, hcs, List.map_cons]
  · have hlast : (Nat.digits 10 n).getLast hne ≠ 0 := Nat.getLast_digit_ne_zero 10 hn
    rw [getLast_of_reverse_cons hcs hne] at hlast
    have hcmem : c ∈ Nat.digits 10 n := by
      have : c ∈ (Nat.digits 10 n).reverse := by rw [hcs]; simp
      simpa using this
    have hclt : c < 10 := Nat.digits_lt_base (by norm_num) hcmem
    exact digitChar_ne_zeroChar c hclt hlast

lemma natStr_pos_ne_zeroStr {n : Nat} (hn : n ≠ 0) : natStr n ≠ "0" := by
  obtain ⟨c, cs, hdata, hc⟩ := natStr_head_ne_zeroChar hn
  intro h
  have hd := congrArg String.data h
  rw [hdata] at hd
  have : ("0" : String).data = ['0'] := by decide
  rw [this] at hd
  exact hc (by injection hd)

lemma natStr_inj : Function.Injective natStr := by
  intro m n h
  by_cases hm : m = 0
  · by_cases hn : n = 0
    · simp [hm, hn]
    · exfalso
      apply natStr_pos_ne_zeroStr hn
      rw [← h, hm]
      decide
  · by_cases hn : n = 0
    · exfalso
      apply natStr_pos_ne_zeroStr hm
      rw [h, hn]
      decide
    · have hd := congrArg String.data h
      rw [natStr_data_pos hm, natStr_data_pos hn] at hd
      have h1 : ∀ d ∈ (Nat.digits 10 m).reverse, d < 10 := by
        intro d hdm
        exact Nat.digits_lt_base (by norm_num) (by simpa using hdm)
      have h2 : ∀ d ∈ (Nat.digits 10 n).reverse, d < 10 := by
        intro d hdn
        exact Nat.digits_lt_base (by norm_num) (by simpa using hdn)
      have := map_digitChar_inj h1 h2 hd
      have := List.reverse_injective this
      exact Nat.digits.injective 10 this

lemma zfill_data (w : Nat) (s : String) :
    (zfill w s).data = List.replicate (w - s.length) '0' ++ s.data := by
  unfold zfill
  split
  · simp [Nat.sub_eq_zero_of_le ‹_›]
  · simp [String.data_append]

lemma pad_head_inj : ∀ (k1 k2 : Nat) (c1 c2 : Char) (t1 t2 : List Char), c1 ≠ '0' → c2 ≠ '0' →
    List.replicate k1 '0' ++ (c1 :: t1) = List.replicate k2 '0' ++ (c2 :: t2) →
    c1 = c2 ∧ t1 = t2 := by
  intro k1
  induction k1 with
  | zero =>
    intro k2 c1 c2 t1 t2 hc1 hc2 h
    cases k2 with
    | zero => simpa using h
    | succ k =>
      exfalso
      apply hc1
      simpa [List.replicate_succ] using congrArg List.head? h
  | succ k ih =>
    intro k2 c1 c2 t1 t2 hc1 hc2 h
    cases k2 with
    | zero =>
      exfalso
      apply hc2
      have := congrArg List.head? h
      simp [List.replicate_succ] at this
      first
      | exact this
      | exact this.symm
    | succ k2' =>
      simp only [List.replicate_succ, List.cons_append, List.cons.injEq] at h
      exact ih k2' c1 c2 t1 t2 hc1 hc2 h.2

/-- Zero-padding the decimal renderings of two positive numbers to width 3
can only produce equal strings when the numbers are equal. -/
lemma zfill_natStr_inj {m n : Nat} (hm : m ≠ 0) (hn : n ≠ 0)
    (h : zfill 3 (natStr m) = zfill 3 (natStr n)) : m = n := by
  obtain ⟨c1, t1, hd1, hc1⟩ := natStr_head_ne_zeroChar hm
  obtain ⟨c2, t2, hd2, hc2⟩ := natStr_head_ne_zeroChar hn
  have hdata := congrArg String.data h
  rw [zfill_data, zfill_data, hd1, hd2] at hdata
  obtain ⟨hc, ht⟩ := pad_head_inj _ _ _ _ _ _ hc1 hc2 hdata
  apply natStr_inj
  apply String.ext
  rw [hd1, hd2, hc, ht]

/-! ### Generation Worker (`ImageGeneratorService` in `image_generator.py`)

The throttle state mirrors the attributes set in
`ImageGeneratorService.__init__` (`self.delay = 5.0`,
`self.max_delay = 120.0`, `self.success_streak = 0`).  Python floats are
modelled as exact rationals.  The outcome of one call to the external
image API (`client.images.generate` together with the rest of the `try`
block) is one of: success, `RateLimitError` (optionally carrying a
`retry-after` header), `APIError`, or any other exception. -/

structure WorkerSt where
  delay : ℚ
  max_delay : ℚ
  success_streak : Nat
deriving DecidableEq

/-- The `__init__` values of the throttle state. -/
def workerInit : WorkerSt := { delay := 5, max_delay := 120, success_streak := 0 }

/-- Python `jitter(s) = s * random.uniform(0.9, 1.1)`; `u` is the sampled
multiplier. -/
def jitterMul (u s : ℚ) : ℚ := s * u

/-- Outcome of one execution of the per-attempt `try` block. -/
inductive AttemptOutcome
  | success
  | rateLimited (retryAfter : Option ℚ)
  | apiError
  | otherError
deriving DecidableEq

/-- Lines 133-137: on a successful generation, increment the success
streak; once it reaches 5 while the delay is above the floor, multiply
the delay by 0.9 (never below 2.0) and reset the streak. -/
def streakUpdate (st : WorkerSt) : WorkerSt :=
  if 5 ≤ st.success_streak + 1 ∧ 2 < st.delay then
    { st with delay := max 2 (st.delay * (9 / 10)), success_streak := 0 }
  else
    { st with success_streak := st.success_streak + 1 }

/-- Lines 141-155: on `RateLimitError`, reset the streak; with a
`retry-after` hint wait the jittered hint, otherwise double the delay
(capped at `max_delay`) and wait the jittered new delay.  Returns the new
state and the sleep duration. -/
def rateLimitUpdate (st : WorkerSt) (retryAfter : Option ℚ) (u : ℚ) : WorkerSt × ℚ :=
  let st1 := { st with success_streak := 0 }
  match retryAfter with
  | some hint => (st1, jitterMul u hint)
  | none =>
      let d := min st.max_delay (st.delay * 2)
      ({ st1 with delay := d }, jitterMul u d)

/-- Lines 157-160: on `APIError`, wait the jittered `min(max_delay,
delay * 1.5)`; the delay and streak are left unchanged. -/
def apiErrorWait (st : WorkerSt) (u : ℚ) : ℚ :=
  jitterMul u (min st.max_delay (st.delay * (3 / 2)))

/-- Python `str.split()` with no separator: split on runs of whitespace,
discarding empty pieces.  `acc` is the current token, reversed. -/
def splitWsAux : List Char → List Char → List (List Char)
  | acc, [] => if acc = [] then [] else [acc.reverse]
  | acc, c :: rest =>
    if c.isWhitespace then
      if acc = [] then splitWsAux [] rest else acc.reverse :: splitWsAux [] rest
    else splitWsAux (c :: acc) rest

/-- Lines 102-104: lower-case the prompt, replace each character that is
neither alphanumeric nor whitespace with a hyphen, then split on
whitespace runs and re-join with single hyphens, truncating to 50
characters (Python `''.join(...)` followed by `'-'.join(sanitized.split())[:50]`).
Python strings are sequences of code points, so the pipeline is modelled
over `List Char`. -/
def sanitizePrompt (p : String) : String :=
  let lowered := p.data.map Char.toLower
  let replaced := lowered.map (fun c => if c.isAlphanum || c.isWhitespace then c else '-')
  let parts := splitWsAux [] replaced
  String.mk ((List.intercalate ['-'] parts).take 50)

/-- Line 105: `f'{str(i).zfill(3)}-{sanitized}.png'`. -/
def mkFilename (i : Nat) (p : String) : String :=
  zfill 3 (natStr i) ++ "-" ++ sanitizePrompt p ++ ".png"

/-- Line 130: the `"i/N"` progress marker. -/
def progressStr (i n : Nat) : String := natStr i ++ "/" ++ natStr n

/-- A persisted `Image` row (the fields the claims are about). -/
structure ImageRec where
  seq : Nat
  filename : String
  prompt_text : String
deriving DecidableEq

/-- Events emitted by the worker through the Event Hub. -/
inductive WEvent
  | jobUpdated (status : String) (finished_at : Option Nat)
  | imageCreated (filename : String) (progress : String)
deriving DecidableEq

/-- The `Job` row fields the worker and the cancel operation touch. -/
structure JobR where
  status : String
  finished_at : Option Nat
deriving DecidableEq

/-- The environment of one worker run: the per-call outcome of the
external API (indexed by the global call counter) and the stream of
sampled `random.uniform(0.9, 1.1)` multipliers (indexed by the draw
counter). -/
structure RunEnv where
  provider : Nat → AttemptOutcome
  rand : Nat → ℚ

/-- Mutable state threaded through the prompt loop of `generate_images`.
`delays` is a ghost trace recording every value `self.delay` ever holds. -/
structure LoopSt where
  ws : WorkerSt
  callIdx : Nat
  randIdx : Nat
  images : List ImageRec
  events : List WEvent
  waits : List ℚ
  delays : List ℚ
  calls : List String

/-- Line 88: `enhanced_prompt = f"{prompt} — {base_prompt}"`. -/
def enhancedPrompt (prompt base_prompt : String) : String :=
  prompt ++ " — " ++ base_prompt

/-- Lines 85-164: the `while retry_count < max_retries` loop for one
prompt; the fuel argument is `max_retries - retry_count`.  `calls` is a
ghost trace of every issued generation call. -/
def attemptLoop (env : RunEnv) (n i : Nat) (prompt base_prompt : String) :
    Nat → LoopSt → LoopSt
  | 0, ls => ls
  | fuel + 1, ls =>
    let ls := { ls with calls := ls.calls ++ [enhancedPrompt prompt base_prompt] }
    match env.provider ls.callIdx with
    | .success =>
        let filename := mkFilename i prompt
        let ws := streakUpdate ls.ws
        { ls with
          callIdx := ls.callIdx + 1
          ws := ws
          images := ls.images ++ [{ seq := i, filename := filename, prompt_text := prompt }]
          events := ls.events ++ [.imageCreated filename (progressStr i n)]
          delays := ls.delays ++ [ws.delay] }
    | .rateLimited retryAfter =>
        let u := env.rand ls.randIdx
        let r := rateLimitUpdate ls.ws retryAfter u
        attemptLoop env n i prompt base_prompt fuel
          { ls with
            callIdx := ls.callIdx + 1
            randIdx := ls.randIdx + 1
            ws := r.1
            waits := ls.waits ++ [r.2]
            delays := ls.delays ++ [r.1.delay] }
    | .apiError =>
        let u := env.rand ls.randIdx
        let w := apiErrorWait ls.ws u
        attemptLoop env n i prompt base_prompt fuel
          { ls with
            callIdx := ls.callIdx + 1
            randIdx := ls.randIdx + 1
            waits := ls.waits ++ [w] }
    | .otherError =>
        attemptLoop env n i prompt base_prompt fuel { ls with callIdx := ls.callIdx + 1 }

/-- Lines 76-167: one iteration of `for i, prompt in enumerate(prompts, 1)`:
the proactive jittered sleep before every call except the first, then the
retry loop with `max_retries = 3`. -/
def processPrompt (env : RunEnv) (n i : Nat) (prompt base_prompt : String)
    (ls : LoopSt) : LoopSt :=
  let ls1 :=
    if 1 < i then
      let u := env.rand ls.randIdx
      { ls with randIdx := ls.randIdx + 1, waits := ls.waits ++ [jitterMul u ls.ws.delay] }
    else ls
  attemptLoop env n i prompt base_prompt 3 ls1

/-- The prompt loop, `i` being the 1-based position of the head prompt. -/
def promptLoop (env : RunEnv) (n : Nat) (base_prompt : String) :
    Nat → List String → LoopSt → LoopSt
  | _, [], ls => ls
  | i, p :: rest, ls =>
      promptLoop env n base_prompt (i + 1) rest (processPrompt env n i p base_prompt ls)

/-- The loop state at entry of the prompt loop: fresh throttle state, the
`running` transition already emitted, and the ghost delay trace holding
the initial delay. -/
def initLoopSt : LoopSt :=
  { ws := workerInit, callIdx := 0, randIdx := 0, images := [],
    events := [.jobUpdated "running" none], waits := [],
    delays := [workerInit.delay], calls := [] }

/-- Result of one run of `ImageGeneratorService.generate_images`. -/
structure RunResult where
  job : JobR
  images : List ImageRec
  events : List WEvent
  waits : List ℚ
  delays : List ℚ
  calls : List String
  raised : Bool

/-- Lines 59-170 of `image_generator.py`: `generate_images`.  `job0` is the
job row at entry (the function never reads its `status`), `now` the wall
clock used for `finished_at`.  With an empty `api_key` it marks the job
`failed` (leaving `finished_at` untouched — `update_job_status` is called
without a timestamp) and raises; otherwise it marks the job `running`,
processes the prompts in order, and unconditionally marks the job
`succeeded` with `finished_at` set. -/
def generate_images (env : RunEnv) (now : Nat) (job0 : JobR) (prompts : List String)
    (base_prompt api_key : String) : RunResult :=
  if api_key = "" then
    { job := { job0 with status := "failed" }
      images := []
      events := [.jobUpdated "failed" none]
      waits := []
      delays := []
      calls := []
      raised := true }
  else
    let ls := promptLoop env prompts.length base_prompt 1 prompts initLoopSt
    { job := { status := "succeeded", finished_at := some now }
      images := ls.images
      events := ls.events ++ [.jobUpdated "succeeded" (some now)]
      waits := ls.waits
      delays := ls.delays
      calls := ls.calls
      raised := false }

/-- Lines 228-259 of `routes/jobs.py`: `cancel_job`.  Returns `none` when
the job is in a terminal state (HTTP 400); otherwise sets the status to
`canceled` with `finished_at`. -/
def cancel_job (now : Nat) (job : JobR) : Option JobR :=
  if job.status = "queued" ∨ job.status = "running" then
    some { status := "canceled", finished_at := some now }
  else
    none

/-! ### Queue Processor (`routes/prompt_generator.py`)

Rows of the record store: `GeneratedPromptFile`, `PromptsFile` (the spec's
PromptSource) and `PromptQueue` (the spec's QueueEntry).  The filesystem
is an association list from path to byte content; SHA-256 is an explicit
function parameter `hash`. -/

structure GenFileR where
  id : Nat
  filename : String
  path : String
deriving DecidableEq

structure PromptsFileR where
  id : Nat
  filename : String
  sha256 : String
  path : String
  status : String
deriving DecidableEq

structure QueueEntryR where
  id : Nat
  generated_file_id : Nat
  status : String
  queued_at : Nat
  completed_at : Option Nat
  prompts_file_id : Option Nat
deriving DecidableEq

/-- Events broadcast by the queue routes through the Event Hub, with the
payload fields they carry. -/
inductive QEvent
  | promptQueueRemoved (queue_id : Nat)
  | promptQueueCompleted (queue_id : Nat) (prompts_file_id : Nat)
  | promptQueueAdded (queue_id : Nat) (filename : String)
  | promptsFileAdded (prompts_file_id : Nat) (filename : String)
deriving DecidableEq

/-- The record-store and filesystem state the queue routes touch.  `now`
is the wall clock (`datetime.utcnow()`), `nextPromptsFileId` and
`nextQueueId` the autoincrement counters of the two tables. -/
structure QState where
  genFiles : List GenFileR
  promptsFiles : List PromptsFileR
  queue : List QueueEntryR
  fs : List (String × List Nat)
  now : Nat
  nextPromptsFileId : Nat
  nextQueueId : Nat
deriving DecidableEq

/-- Lookup of a filesystem path (`Path.exists` / `open`). -/
def fsLookup (fs : List (String × List Nat)) (p : String) : Option (List Nat) :=
  (fs.find? (fun e => e.1 == p)).map (fun e => e.2)

/-- Write a file, overwriting any previous content at the path. -/
def fsWrite (fs : List (String × List Nat)) (p : String) (content : List Nat) :
    List (String × List Nat) :=
  (p, content) :: fs.filter (fun e => e.1 != p)

/-- Delete a file. -/
def fsErase (fs : List (String × List Nat)) (p : String) : List (String × List Nat) :=
  fs.filter (fun e => e.1 != p)

/-- `SELECT ... WHERE id = ...` with `scalar_one_or_none`. -/
def findGenFile (l : List GenFileR) (i : Nat) : Option GenFileR :=
  l.find? (fun g => g.id == i)

/-- `DELETE` of a queue row by primary key. -/
def eraseQueueId (q : List QueueEntryR) (i : Nat) : List QueueEntryR :=
  q.filter (fun e => e.id != i)

/-- Whether any `PromptsFile` row has status `processing`
(`select(PromptsFile).where(PromptsFile.status == 'processing')`). -/
def anyProcessing (s : QState) : Bool :=
  s.promptsFiles.any (fun pf => pf.status == "processing")

/-- Pick a row minimising `queued_at` (ties resolved towards the front of
the list): the model of `ORDER BY queued_at ASC LIMIT 1`. -/
def pickMinQueued : List QueueEntryR → Option QueueEntryR
  | [] => none
  | e :: rest =>
    match pickMinQueued rest with
    | none => some e
    | some b => if b.queued_at < e.queued_at then some b else some e

/-- The oldest `pending` queue row. -/
def oldestPending (q : List QueueEntryR) : Option QueueEntryR :=
  pickMinQueued (q.filter (fun e => e.status == "pending"))

/-- The destination path of a promoted file:
`prompts_dir / f"{timestamp}_{generated_file.filename}"`. -/
def promotedPath (now : Nat) (filename : String) : String :=
  "data/prompts/" ++ natStr now ++ "_" ++ filename

/-- Lines 22-112 of `prompt_generator.py`:
`_process_next_prompt_queue_item` (the auto-trigger helper).  Returns
whether an item was promoted, the new state, and the broadcast events. -/
def process_next_prompt_queue_item (hash : List Nat → String) (s : QState) :
    Bool × QState × List QEvent :=
  if anyProcessing s then (false, s, [])
  else
    match oldestPending s.queue with
    | none => (false, s, [])
    | some qi =>
      match findGenFile s.genFiles qi.generated_file_id with
      | none =>
          (false, { s with queue := eraseQueueId s.queue qi.id }, [.promptQueueRemoved qi.id])
      | some gf =>
        match fsLookup s.fs gf.path with
        | none =>
            (false, { s with queue := eraseQueueId s.queue qi.id }, [.promptQueueRemoved qi.id])
        | some content =>
          let sha := hash content
          let dest := promotedPath s.now gf.filename
          let pf : PromptsFileR :=
            { id := s.nextPromptsFileId, filename := gf.filename, sha256 := sha,
              path := dest, status := "pending" }
          let qi' : QueueEntryR :=
            { qi with status := "completed", completed_at := some s.now,
                      prompts_file_id := some pf.id }
          let s' : QState :=
            { s with
              fs := fsWrite s.fs dest content
              promptsFiles := s.promptsFiles ++ [pf]
              nextPromptsFileId := s.nextPromptsFileId + 1
              queue := s.queue.map (fun e => if e.id = qi.id then qi' else e) }
          (true, s', [.promptQueueCompleted qi.id pf.id, .promptsFileAdded pf.id gf.filename])

/-- Lines 423-517: the manual route `process_next_in_queue`.  Identical
promotion logic, but this route broadcasts no events in any branch. -/
def process_next_in_queue (hash : List Nat → String) (s : QState) :
    Bool × QState × List QEvent :=
  if anyProcessing s then (false, s, [])
  else
    match oldestPending s.queue with
    | none => (false, s, [])
    | some qi =>
      match findGenFile s.genFiles qi.generated_file_id with
      | none => (false, { s with queue := eraseQueueId s.queue qi.id }, [])
      | some gf =>
        match fsLookup s.fs gf.path with
        | none => (false, { s with queue := eraseQueueId s.queue qi.id }, [])
        | some content =>
          let sha := hash content
          let dest := promotedPath s.now gf.filename
          let pf : PromptsFileR :=
            { id := s.nextPromptsFileId, filename := gf.filename, sha256 := sha,
              path := dest, status := "pending" }
          let qi' : QueueEntryR :=
            { qi with status := "completed", completed_at := some s.now,
                      prompts_file_id := some pf.id }
          let s' : QState :=
            { s with
              fs := fsWrite s.fs dest content
              promptsFiles := s.promptsFiles ++ [pf]
              nextPromptsFileId := s.nextPromptsFileId + 1
              queue := s.queue.map (fun e => if e.id = qi.id then qi' else e) }
          (true, s', [])

/-- Result of the enqueue route. -/
inductive EnqueueRes
  | notFound
  | fileMissing
  | ok (queue_id : Nat) (already_queued : Bool)
deriving DecidableEq

/-- Lines 293-356: `queue_generated_file` (the enqueue route).  When a
queue row already references the source it returns that row with
`already_queued = True` immediately; otherwise it inserts a `pending`
row, broadcasts the `added` event and auto-triggers the helper. -/
def queue_generated_file (hash : List Nat → String) (file_id : Nat) (s : QState) :
    EnqueueRes × QState × List QEvent :=
  match findGenFile s.genFiles file_id with
  | none => (.notFound, s, [])
  | some gf =>
    match fsLookup s.fs gf.path with
    | none => (.fileMissing, s, [])
    | some _ =>
      match s.queue.find? (fun e => e.generated_file_id == file_id) with
      | some ex => (.ok ex.id true, s, [])
      | none =>
        let qi : QueueEntryR :=
          { id := s.nextQueueId, generated_file_id := file_id, status := "pending",
            queued_at := s.now, completed_at := none, prompts_file_id := none }
        let s1 : QState := { s with queue := s.queue ++ [qi], nextQueueId := s.nextQueueId + 1 }
        let r := process_next_prompt_queue_item hash s1
        (.ok qi.id false, r.2.1, .promptQueueAdded qi.id gf.filename :: r.2.2)

/-- Result of the remove route. -/
inductive RemoveRes
  | notFound
  | isProcessing
  | removed
deriving DecidableEq

/-- Lines 393-420: `remove_from_prompt_queue`.  Rejects a `processing`
row, otherwise deletes the row and broadcasts the removal. -/
def remove_from_prompt_queue (queue_id : Nat) (s : QState) :
    RemoveRes × QState × List QEvent :=
  match s.queue.find? (fun e => e.id == queue_id) with
  | none => (.notFound, s, [])
  | some qi =>
    if qi.status = "processing" then (.isProcessing, s, [])
    else (.removed, { s with queue := eraseQueueId s.queue queue_id }, [.promptQueueRemoved queue_id])

/-! ### Artifact Cache (`services/zip_generator.py`)

Only `build_all_jobs_zip` and `invalidate_all_jobs_cache` are needed by
the claims.  The `app_config` table is an association list from key to
value; crucially, the source records the aggregate metadata with bare SQL
`UPDATE` statements, which touch nothing when the key is absent. -/

structure ZImageR where
  job_id : Nat
  path : String
  created_at : Nat
deriving DecidableEq

structure ZState where
  config : List (String × String)
  images : List ZImageR
  fs : List (String × List Nat)
  now : Nat
deriving DecidableEq

/-- `UPDATE app_config SET value = v WHERE key = k`: rewrites existing
rows and inserts nothing. -/
def updateConfig (cfg : List (String × String)) (k v : String) : List (String × String) :=
  cfg.map (fun e => if e.1 = k then (k, v) else e)

/-- `DELETE FROM app_config WHERE key IN ks`. -/
def deleteConfigKeys (cfg : List (String × String)) (ks : List String) :
    List (String × String) :=
  cfg.filter (fun e => !(ks.contains e.1))

/-- Lookup of a config key. -/
def configLookup (cfg : List (String × String)) (k : String) : Option String :=
  (cfg.find? (fun e => e.1 == k)).map (fun e => e.2)

/-- The last path component (`Path(...).name`). -/
def basename (p : String) : String := (p.splitOn "/").getLastD ""

/-- Insertion into a list sorted by `(job_id, created_at)`. -/
def insertByJobCreated (img : ZImageR) : List ZImageR → List ZImageR
  | [] => [img]
  | b :: rest =>
    if img.job_id < b.job_id ∨ (img.job_id = b.job_id ∧ img.created_at ≤ b.created_at) then
      img :: b :: rest
    else
      b :: insertByJobCreated img rest

/-- `ORDER BY job_id, created_at` over the image table. -/
def sortImages (l : List ZImageR) : List ZImageR :=
  l.foldr insertByJobCreated []

/-- A deterministic encoding of archive entries `(arcname, bytes)` into the
bytes of the produced ZIP file. -/
def zipEncode (entries : List (String × List Nat)) : List Nat :=
  entries.foldr (fun e acc => (e.1.data.map Char.toNat) ++ [0] ++ e.2 ++ [0] ++ acc) []

/-- The fixed location of the aggregate archive. -/
def allJobsZipPath : String := "data/zips/all_jobs.zip"

/-- Lines 73-117 of `zip_generator.py`: `build_all_jobs_zip`.  Returns
`none` when there are no image rows; otherwise writes one archive holding
every existing image file under a `job_<id>/` arcname and issues the three
metadata `UPDATE`s against `app_config`. -/
def build_all_jobs_zip (hash : List Nat → String) (s : ZState) : Option String × ZState :=
  let images := sortImages s.images
  if images.isEmpty then (none, s)
  else
    let entries := images.filterMap (fun img =>
      (fsLookup s.fs img.path).map (fun c =>
        ("job_" ++ natStr img.job_id ++ "/" ++ basename img.path, c)))
    let bytes := zipEncode entries
    let fs1 := fsWrite s.fs allJobsZipPath bytes
    let sha := hash bytes
    let cfg :=
      updateConfig
        (updateConfig
          (updateConfig s.config "all_jobs_zip_path" allJobsZipPath)
          "all_jobs_zip_sha256" sha)
        "all_jobs_zip_built_at" (natStr s.now)
    (some allJobsZipPath, { s with fs := fs1, config := cfg })

/-- Lines 119-137: `invalidate_all_jobs_cache`.  Deletes the aggregate
archive file if present and deletes the three metadata keys. -/
def invalidate_all_jobs_cache (s : ZState) : ZState :=
  let fs1 :=
    match fsLookup s.fs allJobsZipPath with
    | some _ => fsErase s.fs allJobsZipPath
    | none => s.fs
  { s with fs := fs1,
           config := deleteConfigKeys s.config
             ["all_jobs_zip_path", "all_jobs_zip_sha256", "all_jobs_zip_built_at"] }

/-! ### The filename slug as the specification words it (for claim C5)

The spec describes the slug as "lower-cased, non-alphanumeric runs
collapsed to single hyphens, truncated to 50 characters".  This
definition follows those words (and only them), to be compared with the
source-derived `sanitizePrompt`. -/

/-- Collapse every maximal run of non-alphanumeric characters to a single
hyphen; the flag records whether the current run has already emitted its
hyphen. -/
def collapseRunsAux : Bool → List Char → List Char
  | _, [] => []
  | inRun, c :: rest =>
    if c.isAlphanum then c :: collapseRunsAux false rest
    else if inRun then collapseRunsAux true rest
    else '-' :: collapseRunsAux true rest

/-- The slug exactly as the claim describes it. -/
def slugClaim (p : String) : String :=
  String.mk ((collapseRunsAux false (p.data.map Char.toLower)).take 50)

/-- The filename exactly as the claim describes it. -/
def claimFilename (i : Nat) (p : String) : String :=
  zfill 3 (natStr i) ++ "-" ++ slugClaim p ++ ".png"

set_option maxRecDepth 4096 in
example : sanitizePrompt "a!!b" = "a--b" := by decide
set_option maxRecDepth 4096 in
example : slugClaim "a!!b" = "a-b" := by decide
set_option maxRecDepth 4096 in
example : mkFilename 1 "a!!b" = "001-a--b.png" := by decide
set_option maxRecDepth 4096 in
example : claimFilename 1 "a!!b" = "001-a-b.png" := by decide

/-! ### Run-level lemmas about the worker loop -/

/-- The image record created for prompt `p` at 1-based position `i`. -/
def imageOf (i : Nat) (p : String) : ImageRec :=
  { seq := i, filename := mkFilename i p, prompt_text := p }

lemma attemptLoop_images (env : RunEnv) (n i : Nat) (p b : String) :
    ∀ (fuel : Nat) (ls : LoopSt),
      (attemptLoop env n i p b fuel ls).images = ls.images ∨
      (attemptLoop env n i p b fuel ls).images = ls.images ++ [imageOf i p] := by
  intro fuel
  induction fuel with
  | zero => intro ls; exact Or.inl rfl
  | succ f ih =>
    intro ls
    simp only [attemptLoop]
    split
    · right
      simp [imageOf]
    · exact ih _
    · exact ih _
    · exact ih _

lemma processPrompt_images (env : RunEnv) (n i : Nat) (p b : String) (ls : LoopSt) :
    (processPrompt env n i p b ls).images = ls.images ∨
    (processPrompt env n i p b ls).images = ls.images ++ [imageOf i p] := by
  by_cases h : 1 < i <;> simp only [processPrompt, h, if_pos, if_neg, not_false_iff] <;>
    exact attemptLoop_images env n i p b 3 _

/-- Characterisation of the prompt loop: it appends at most one image per
prompt, each created image carries the prompt at its own 1-based position
and the deterministic filename, and the sequence numbers of the appended
images are strictly increasing. -/
lemma promptLoop_spec (env : RunEnv) (n : Nat) (b : String) :
    ∀ (ps : List String) (i : Nat) (ls : LoopSt),
      ∃ new : List ImageRec,
        (promptLoop env n b i ps ls).images = ls.images ++ new ∧
        new.length ≤ ps.length ∧
        (∀ img ∈ new,
          i ≤ img.seq ∧ img.seq < i + ps.length ∧
          ps[img.seq - i]? = some img.prompt_text ∧
          img.filename = mkFilename img.seq img.prompt_text) ∧
        List.Pairwise (fun a a2 => a.seq < a2.seq) new := by
  intro ps
  induction ps with
  | nil =>
    intro i ls
    exact ⟨[], by simp [promptLoop], by simp, by simp, by simp⟩
  | cons p rest ih =>
    intro i ls
    rcases processPrompt_images env n i p b ls with h | h
    · obtain ⟨new, h1, h2, h3, h4⟩ := ih (i + 1) (processPrompt env n i p b ls)
      refine ⟨new, ?_, ?_, ?_, h4⟩
      · rw [promptLoop, h1, h]
      · simp only [List.length_cons]
        omega
      · intro img hm
        obtain ⟨ha, hb, hc, hd⟩ := h3 img hm
        refine ⟨by omega, by simp only [List.length_cons]; omega, ?_, hd⟩
        have hidx : img.seq - i = (img.seq - (i + 1)) + 1 := by omega
        rw [hidx]
        simpa using hc
    · obtain ⟨new, h1, h2, h3, h4⟩ := ih (i + 1) (processPrompt env n i p b ls)
      refine ⟨imageOf i p :: new, ?_, ?_, ?_, ?_⟩
      · rw [promptLoop, h1, h]
        simp
      · simp only [List.length_cons]
        omega
      · intro img hm
        rcases List.mem_cons.mp hm with rfl | hm2
        · refine ⟨le_rfl, by simp [imageOf], ?_, rfl⟩
          simp [imageOf]
        · obtain ⟨ha, hb, hc, hd⟩ := h3 img hm2
          refine ⟨by omega, by simp only [List.length_cons]; omega, ?_, hd⟩
          have hidx : img.seq - i = (img.seq - (i + 1)) + 1 := by omega
          rw [hidx]
          simpa using hc
      · refine List.Pairwise.cons ?_ h4
        intro a2 ha2
        have := (h3 a2 ha2).1
        simp only [imageOf]
        omega

/-! ### Claim theorems: the Generation Worker -/

/-- A provider that succeeds on every call, with the jitter multiplier
fixed at 1. -/
def envAllSuccess : RunEnv := { provider := fun _ => .success, rand := fun _ => 1 }

/-- A provider that fails every call with an unclassified exception. -/
def envAllFail : RunEnv := { provider := fun _ => .otherError, rand := fun _ => 1 }

/-- Claim C7: for every run of the Generation Worker with a non-empty
credential, the run terminates with the job marked `succeeded` and a
non-null `finished_at`, regardless of per-prompt failures; an empty
prompt list is treated as success with zero images. -/
theorem C7_nonempty_credential_always_succeeds (env : RunEnv) (now : Nat) (job0 : JobR)
    (prompts : List String) (bp key : String) (hk : key ≠ "") :
    (generate_images env now job0 prompts bp key).job.status = "succeeded" ∧
    (generate_images env now job0 prompts bp key).job.finished_at = some now ∧
    (generate_images env now job0 prompts bp key).raised = false ∧
    (prompts = [] → (generate_images env now job0 prompts bp key).images = []) := by
  simp only [generate_images, if_neg hk]
  refine ⟨?_, ?_, ?_, ?_⟩ <;>
    first
    | trivial
    | · intro hp
        subst hp
        rfl

/-- Witness for C7: a single-prompt job whose every generation attempt
raises an unclassified error still ends `succeeded` with zero images. -/
theorem C7_nonempty_credential_always_succeeds_witness :
    (generate_images envAllFail 4 { status := "queued", finished_at := none }
        ["cat"] "sticker style" "sk-key").job.status = "succeeded" ∧
    (generate_images envAllFail 4 { status := "queued", finished_at := none }
        ["cat"] "sticker style" "sk-key").job.finished_at = some 4 := by
  have h := C7_nonempty_credential_always_succeeds envAllFail 4
    { status := "queued", finished_at := none } ["cat"] "sticker style" "sk-key"
    (by decide)
  exact ⟨h.1, h.2.1⟩

set_option maxRecDepth 8192 in
/-- Claim C1 (code bug): the spec requires that once a job is canceled the
worker detects it at its next per-prompt status check, stops issuing
generation calls and leaves the status `canceled`.  The worker has no
status check at all: starting from a job already in status `canceled`, it
still issues one generation call per prompt (here two calls for two
prompts), persists both images, and unconditionally overwrites the status
with `succeeded`. -/
theorem C1_canceled_job_overwritten_to_succeeded :
    cancel_job 3 { status := "running", finished_at := none } =
      some { status := "canceled", finished_at := some 3 } ∧
    (generate_images envAllSuccess 9 { status := "canceled", finished_at := some 3 }
        ["cat", "dog"] "sticker style" "sk-key").job.status = "succeeded" ∧
    (generate_images envAllSuccess 9 { status := "canceled", finished_at := some 3 }
        ["cat", "dog"] "sticker style" "sk-key").job.finished_at = some 9 ∧
    (generate_images envAllSuccess 9 { status := "canceled", finished_at := some 3 }
        ["cat", "dog"] "sticker style" "sk-key").calls.length = 2 ∧
    (generate_images envAllSuccess 9 { status := "canceled", finished_at := some 3 }
        ["cat", "dog"] "sticker style" "sk-key").images.length = 2 := by
  refine ⟨by decide, ?_, ?_, ?_, ?_⟩ <;> decide

lemma generate_images_images_eq (env : RunEnv) (now : Nat) (job0 : JobR)
    (prompts : List String) (bp key : String) (hk : key ≠ "") :
    (generate_images env now job0 prompts bp key).images =
      (promptLoop env prompts.length bp 1 prompts initLoopSt).images := by
  unfold generate_images
  rw [if_neg hk]

lemma generate_images_delays_eq (env : RunEnv) (now : Nat) (job0 : JobR)
    (prompts : List String) (bp key : String) (hk : key ≠ "") :
    (generate_images env now job0 prompts bp key).delays =
      (promptLoop env prompts.length bp 1 prompts initLoopSt).delays := by
  unfold generate_images
  rw [if_neg hk]

/-- Claim C9: the number of persisted image records never exceeds the
number of input prompts, the sequence numbers of the images are strictly
increasing in creation order, and the zero-padded 3-digit sequence
prefixes of their filenames are pairwise distinct. -/
theorem C9_image_count_and_ordering (env : RunEnv) (now : Nat) (job0 : JobR)
    (prompts : List String) (bp key : String) :
    (generate_images env now job0 prompts bp key).images.length ≤ prompts.length ∧
    List.Pairwise (fun a a2 => a.seq < a2.seq)
      (generate_images env now job0 prompts bp key).images ∧
    List.Pairwise (fun s1 s2 => s1 ≠ s2)
      ((generate_images env now job0 prompts bp key).images.map
        (fun img => zfill 3 (natStr img.seq))) := by
  by_cases hk : key = ""
  · simp [generate_images, hk]
  · rw [generate_images_images_eq env now job0 prompts bp key hk]
    obtain ⟨new, h1, h2, h3, h4⟩ := promptLoop_spec env prompts.length bp prompts 1 initLoopSt
    have hinit : initLoopSt.images = [] := rfl
    rw [hinit, List.nil_append] at h1
    rw [h1]
    refine ⟨h2, h4, ?_⟩
    rw [List.pairwise_map]
    refine h4.imp_of_mem ?_
    intro a a2 ha ha2 hlt heq
    have h1a := (h3 a ha).1
    have h1a2 := (h3 a2 ha2).1
    have : a.seq = a2.seq := zfill_natStr_inj (by omega) (by omega) heq
    omega

set_option maxRecDepth 8192 in
/-- Claim C5 counterexample: the claim says every run of non-alphanumeric
characters collapses to a single hyphen, but the source collapses only
whitespace runs — each non-alphanumeric, non-whitespace character becomes
its own hyphen.  On the prompt "a!!b" at position 1 the code produces
"001-a--b.png" while the claimed rule produces "001-a-b.png". -/
theorem C5_slug_counterexample :
    mkFilename 1 "a!!b" = "001-a--b.png" ∧
    claimFilename 1 "a!!b" = "001-a-b.png" ∧
    mkFilename 1 "a!!b" ≠ claimFilename 1 "a!!b" := by
  refine ⟨by decide, by decide, by decide⟩

/-- Claim C5 (amended): the filename of the image persisted for the prompt
at 1-based position i is the zero-padded 3-digit sequence number, a
hyphen, and a slug of the prompt obtained by lower-casing it, replacing
each non-alphanumeric non-whitespace character with a hyphen of its own,
collapsing whitespace runs to single hyphens (discarding leading and
trailing whitespace), and truncating to 50 characters, plus ".png"; the
mapping from (i, prompt) to filename is the function `mkFilename`. -/
theorem C5_amended_filename_shape (env : RunEnv) (now : Nat) (job0 : JobR)
    (prompts : List String) (bp key : String) (img : ImageRec)
    (himg : img ∈ (generate_images env now job0 prompts bp key).images) :
    1 ≤ img.seq ∧ img.seq ≤ prompts.length ∧
    prompts[img.seq - 1]? = some img.prompt_text ∧
    img.filename = mkFilename img.seq img.prompt_text ∧
    img.filename = zfill 3 (natStr img.seq) ++ "-" ++ sanitizePrompt img.prompt_text ++ ".png" := by
  by_cases hk : key = ""
  · exfalso
    simp [generate_images, hk] at himg
  · rw [generate_images_images_eq env now job0 prompts bp key hk] at himg
    obtain ⟨new, h1, h2, h3, h4⟩ := promptLoop_spec env prompts.length bp prompts 1 initLoopSt
    have hinit : initLoopSt.images = [] := rfl
    rw [hinit, List.nil_append] at h1
    rw [h1] at himg
    obtain ⟨ha, hb, hc, hd⟩ := h3 img himg
    exact ⟨ha, by omega, hc, hd, hd⟩

set_option maxRecDepth 8192 in
/-- Witness for the amended C5 at a concrete run: the single image of a
one-prompt all-success run. -/
theorem C5_amended_filename_shape_witness :
    1 ≤ (imageOf 1 "cat").seq ∧ (imageOf 1 "cat").seq ≤ (["cat"] : List String).length ∧
    (["cat"] : List String)[(imageOf 1 "cat").seq - 1]? = some (imageOf 1 "cat").prompt_text ∧
    (imageOf 1 "cat").filename = mkFilename (imageOf 1 "cat").seq (imageOf 1 "cat").prompt_text ∧
    (imageOf 1 "cat").filename =
      zfill 3 (natStr (imageOf 1 "cat").seq) ++ "-" ++
        sanitizePrompt (imageOf 1 "cat").prompt_text ++ ".png" :=
  C5_amended_filename_shape envAllSuccess 0 { status := "queued", finished_at := none }
    ["cat"] "sticker style" "sk-key" (imageOf 1 "cat") (by decide)

/-! ### Throttle-state bounds (for claim C6) -/

lemma streakUpdate_delay_bounds (st : WorkerSt) (h2 : 2 ≤ st.delay) (h120 : st.delay ≤ 120) :
    2 ≤ (streakUpdate st).delay ∧ (streakUpdate st).delay ≤ 120 := by
  unfold streakUpdate
  split
  · constructor
    · exact le_max_left _ _
    · refine max_le (by norm_num) ?_
      nlinarith
  · exact ⟨h2, h120⟩

lemma streakUpdate_max_delay (st : WorkerSt) : (streakUpdate st).max_delay = st.max_delay := by
  unfold streakUpdate
  split <;> rfl

lemma rateLimitUpdate_delay_bounds (st : WorkerSt) (ra : Option ℚ) (u : ℚ)
    (h2 : 2 ≤ st.delay) (h120 : st.delay ≤ 120) (hmax : st.max_delay = 120) :
    2 ≤ (rateLimitUpdate st ra u).1.delay ∧ (rateLimitUpdate st ra u).1.delay ≤ 120 := by
  unfold rateLimitUpdate
  cases ra with
  | some hint => exact ⟨h2, h120⟩
  | none =>
    rw [hmax]
    constructor
    · exact le_min (by norm_num) (by linarith)
    · exact min_le_left _ _

lemma rateLimitUpdate_max_delay (st : WorkerSt) (ra : Option ℚ) (u : ℚ) :
    (rateLimitUpdate st ra u).1.max_delay = st.max_delay := by
  unfold rateLimitUpdate
  cases ra <;> rfl

/-- The invariant threaded through the worker loop: the current delay and
every recorded delay lie in the interval [2, 120], and the ceiling field
still holds 120. -/
def delayInv (ls : LoopSt) : Prop :=
  2 ≤ ls.ws.delay ∧ ls.ws.delay ≤ 120 ∧ ls.ws.max_delay = 120 ∧
  ∀ d ∈ ls.delays, 2 ≤ d ∧ d ≤ 120

lemma attemptLoop_delayInv (env : RunEnv) (n i : Nat) (p b : String) :
    ∀ (fuel : Nat) (ls : LoopSt), delayInv ls → delayInv (attemptLoop env n i p b fuel ls) := by
  intro fuel
  induction fuel with
  | zero => intro ls h; exact h
  | succ f ih =>
    intro ls h
    obtain ⟨h2, h120, hmax, hall⟩ := h
    simp only [attemptLoop]
    split
    · obtain ⟨g2, g120⟩ := streakUpdate_delay_bounds ls.ws h2 h120
      refine ⟨g2, g120, ?_, ?_⟩
      · rw [streakUpdate_max_delay]
        exact hmax
      · intro d hd
        rcases List.mem_append.mp hd with hd1 | hd2
        · exact hall d hd1
        · rcases List.mem_singleton.mp hd2 with rfl
          exact ⟨g2, g120⟩
    · apply ih
      obtain ⟨g2, g120⟩ := rateLimitUpdate_delay_bounds ls.ws _ _ h2 h120 hmax
      refine ⟨g2, g120, ?_, ?_⟩
      · rw [rateLimitUpdate_max_delay]
        exact hmax
      · intro d hd
        rcases List.mem_append.mp hd with hd1 | hd2
        · exact hall d hd1
        · rcases List.mem_singleton.mp hd2 with rfl
          exact ⟨g2, g120⟩
    · exact ih _ ⟨h2, h120, hmax, hall⟩
    · exact ih _ ⟨h2, h120, hmax, hall⟩

lemma processPrompt_delayInv (env : RunEnv) (n i : Nat) (p b : String) (ls : LoopSt)
    (h : delayInv ls) : delayInv (processPrompt env n i p b ls) := by
  by_cases hi : 1 < i <;>
    simp only [processPrompt, hi, if_pos, if_neg, not_false_iff] <;>
    exact attemptLoop_delayInv env n i p b 3 _ h

lemma promptLoop_delayInv (env : RunEnv) (n : Nat) (b : String) :
    ∀ (ps : List String) (i : Nat) (ls : LoopSt),
      delayInv ls → delayInv (promptLoop env n b i ps ls) := by
  intro ps
  induction ps with
  | nil => intro i ls h; exact h
  | cons p rest ih =>
    intro i ls h
    rw [promptLoop]
    exact ih (i + 1) _ (processPrompt_delayInv env n i p b ls h)

lemma initLoopSt_delayInv : delayInv initLoopSt := by
  refine ⟨by norm_num [initLoopSt, workerInit], by norm_num [initLoopSt, workerInit],
    rfl, ?_⟩
  intro d hd
  have : d = 5 := by
    simpa [initLoopSt, workerInit] using hd
  subst this
  norm_num

lemma attemptLoop_delays_mono (env : RunEnv) (n i : Nat) (p b : String) :
    ∀ (fuel : Nat) (ls : LoopSt),
      ∃ rest, (attemptLoop env n i p b fuel ls).delays = ls.delays ++ rest := by
  intro fuel
  induction fuel with
  | zero => intro ls; exact ⟨[], by simp [attemptLoop]⟩
  | succ f ih =>
    intro ls
    simp only [attemptLoop]
    split
    · exact ⟨_, rfl⟩
    · rename_i retryAfter heq
      obtain ⟨rest, hr⟩ := ih _
      refine ⟨(rateLimitUpdate ls.ws retryAfter (env.rand ls.randIdx)).1.delay :: rest, ?_⟩
      rw [hr]
      simp
    · obtain ⟨rest, hr⟩ := ih _
      exact ⟨rest, by rw [hr]⟩
    · obtain ⟨rest, hr⟩ := ih _
      exact ⟨rest, by rw [hr]⟩

lemma processPrompt_delays_mono (env : RunEnv) (n i : Nat) (p b : String) (ls : LoopSt) :
    ∃ rest, (processPrompt env n i p b ls).delays = ls.delays ++ rest := by
  by_cases hi : 1 < i <;>
    simp only [processPrompt, hi, if_pos, if_neg, not_false_iff] <;>
    exact attemptLoop_delays_mono env n i p b 3 _

lemma promptLoop_delays_mono (env : RunEnv) (n : Nat) (b : String) :
    ∀ (ps : List String) (i : Nat) (ls : LoopSt),
      ∃ rest, (promptLoop env n b i ps ls).delays = ls.delays ++ rest := by
  intro ps
  induction ps with
  | nil => intro i ls; exact ⟨[], by simp [promptLoop]⟩
  | cons p rest0 ih =>
    intro i ls
    rw [promptLoop]
    obtain ⟨r1, hr1⟩ := processPrompt_delays_mono env n i p b ls
    obtain ⟨r2, hr2⟩ := ih (i + 1) (processPrompt env n i p b ls)
    exact ⟨r1 ++ r2, by rw [hr2, hr1]; simp⟩

/-- Claim C6: the throttle delay starts at 5.0 seconds and stays within
[2.0, 120.0] throughout every job run; on a rate-limit error without a
retry-after hint the new delay is min(120, delay * 2) and the success
streak resets to 0; on a generic provider error the throttle state is
left unchanged and the wait is jitter(min(120, delay * 1.5)); once the
streak reaches 5 consecutive successes while the delay exceeds the 2.0
floor, the new delay is max(2, delay * 0.9) and the streak resets to 0. -/
theorem C6_throttle_delay_dynamics :
    workerInit.delay = 5 ∧ workerInit.max_delay = 120 ∧ workerInit.success_streak = 0 ∧
    (∀ (st : WorkerSt) (u : ℚ), st.max_delay = 120 →
      (rateLimitUpdate st none u).1.delay = min 120 (st.delay * 2) ∧
      (rateLimitUpdate st none u).1.success_streak = 0) ∧
    (∀ (st : WorkerSt) (u : ℚ), st.max_delay = 120 →
      apiErrorWait st u = jitterMul u (min 120 (st.delay * (3 / 2)))) ∧
    (∀ (env : RunEnv) (n i fuel : Nat) (p b : String) (ls : LoopSt),
      env.provider ls.callIdx = .apiError →
      attemptLoop env n i p b (fuel + 1) ls =
        attemptLoop env n i p b fuel
          { ls with
            callIdx := ls.callIdx + 1
            randIdx := ls.randIdx + 1
            calls := ls.calls ++ [enhancedPrompt p b]
            waits := ls.waits ++ [apiErrorWait ls.ws (env.rand ls.randIdx)] }) ∧
    (∀ st : WorkerSt, 5 ≤ st.success_streak + 1 → 2 < st.delay →
      (streakUpdate st).delay = max 2 (st.delay * (9 / 10)) ∧
      (streakUpdate st).success_streak = 0) ∧
    (∀ (env : RunEnv) (now : Nat) (job0 : JobR) (prompts : List String) (bp key : String),
      key ≠ "" →
      (generate_images env now job0 prompts bp key).delays.head? = some 5 ∧
      ∀ d ∈ (generate_images env now job0 prompts bp key).delays, 2 ≤ d ∧ d ≤ 120) := by
  refine ⟨rfl, rfl, rfl, ?_, ?_, ?_, ?_, ?_⟩
  · intro st u hmax
    unfold rateLimitUpdate
    rw [hmax]
    exact ⟨rfl, rfl⟩
  · intro st u hmax
    unfold apiErrorWait
    rw [hmax]
  · intro env n i fuel p b ls hpo
    simp only [attemptLoop]
    split
    · rename_i heq
      rw [hpo] at heq
      cases heq
    · rename_i heq
      rw [hpo] at heq
      cases heq
    · rfl
    · rename_i heq
      rw [hpo] at heq
      cases heq
  · intro st h5 h2
    unfold streakUpdate
    rw [if_pos ⟨h5, h2⟩]
    exact ⟨rfl, rfl⟩
  · intro env now job0 prompts bp key hk
    rw [generate_images_delays_eq env now job0 prompts bp key hk]
    have hinv := promptLoop_delayInv env prompts.length bp prompts 1 initLoopSt initLoopSt_delayInv
    constructor
    · obtain ⟨rest, hrest⟩ :=
        promptLoop_delays_mono env prompts.length bp prompts 1 initLoopSt
      rw [hrest]
      rfl
    · exact hinv.2.2.2

/-- Witness for C6: the branch equations evaluated at a concrete throttle
state, and the initial delay of a concrete run. -/
theorem C6_throttle_delay_dynamics_witness :
    (rateLimitUpdate { delay := 5, max_delay := 120, success_streak := 3 } none 1).1.delay =
      min 120 (5 * 2) ∧
    (rateLimitUpdate { delay := 5, max_delay := 120, success_streak := 3 } none 1).1.success_streak
      = 0 ∧
    apiErrorWait { delay := 5, max_delay := 120, success_streak := 0 } 1 =
      jitterMul 1 (min 120 (5 * (3 / 2))) ∧
    (streakUpdate { delay := 5, max_delay := 120, success_streak := 4 }).delay =
      max 2 (5 * (9 / 10)) ∧
    (streakUpdate { delay := 5, max_delay := 120, success_streak := 4 }).success_streak = 0 ∧
    (generate_images envAllFail 0 { status := "queued", finished_at := none }
      [] "sticker" "sk").delays.head? = some 5 := by
  have h := C6_throttle_delay_dynamics
  exact ⟨(h.2.2.2.1 _ 1 rfl).1, (h.2.2.2.1 _ 1 rfl).2, h.2.2.2.2.1 _ 1 rfl,
    (h.2.2.2.2.2.2.1 _ (by norm_num) (by norm_num)).1,
    (h.2.2.2.2.2.2.1 _ (by norm_num) (by norm_num)).2,
    (h.2.2.2.2.2.2.2 envAllFail 0 _ [] "sticker" "sk" (by decide)).1⟩

/-! ### Claim theorems: the Queue Processor -/

/-- A concrete stand-in for the SHA-256 parameter. -/
def hashZero : List Nat → String := fun _ => "hash"

/-- A concrete generated prompt file. -/
def gfA : GenFileR := { id := 1, filename := "f.txt", path := "data/generated_prompts/f.txt" }

/-- A concrete pending queue entry referencing `gfA`. -/
def qeA : QueueEntryR :=
  { id := 10, generated_file_id := 1, status := "pending", queued_at := 0,
    completed_at := none, prompts_file_id := none }

/-- A state in which source 1 is already queued (entry 10, pending), its
file exists on disk, and the queue is otherwise idle (no PromptsFile is
`processing`). -/
def sDup : QState :=
  { genFiles := [gfA], promptsFiles := [], queue := [qeA],
    fs := [("data/generated_prompts/f.txt", [1, 2, 3])],
    now := 5, nextPromptsFileId := 1, nextQueueId := 11 }

/-- A state in which one PromptsFile is `processing`. -/
def sProcessing : QState :=
  { genFiles := [gfA], promptsFiles :=
      [{ id := 1, filename := "f.txt", sha256 := "h", path := "data/prompts/1_f.txt",
         status := "processing" }],
    queue := [qeA], fs := [("data/generated_prompts/f.txt", [1, 2, 3])],
    now := 5, nextPromptsFileId := 2, nextQueueId := 11 }

/-- Claim C8: whenever any PromptsFile (the spec's PromptSource) has
status `processing`, both the auto-trigger helper and the manual
process-next route return false, leave the state — in particular the
queue — unchanged, and broadcast nothing. -/
theorem C8_single_flight_gate (hash : List Nat → String) (s : QState)
    (h : anyProcessing s = true) :
    process_next_prompt_queue_item hash s = (false, s, []) ∧
    process_next_in_queue hash s = (false, s, []) := by
  unfold process_next_prompt_queue_item process_next_in_queue
  rw [if_pos h, if_pos h]
  exact ⟨rfl, rfl⟩

/-- Witness for C8 at a concrete state holding a `processing` PromptsFile
and a pending queue entry. -/
theorem C8_single_flight_gate_witness :
    process_next_prompt_queue_item hashZero sProcessing = (false, sProcessing, []) ∧
    process_next_in_queue hashZero sProcessing = (false, sProcessing, []) :=
  C8_single_flight_gate hashZero sProcessing (by decide)

set_option maxRecDepth 8192 in
/-- Claim C3 counterexample: in state `sDup` source 1 is already queued
and the queue is idle.  The second enqueue returns the existing entry
with already_queued = true and creates no duplicate — but it does NOT
attempt processNext: it returns the state unchanged and broadcasts
nothing, although processNext at that very state would promote the
pending entry (it returns true and changes the state). -/
theorem C3_enqueue_no_processnext_counterexample :
    queue_generated_file hashZero 1 sDup = (.ok 10 true, sDup, []) ∧
    (process_next_prompt_queue_item hashZero sDup).1 = true ∧
    (process_next_prompt_queue_item hashZero sDup).2.1 ≠ sDup := by
  refine ⟨by decide, by decide, by decide⟩

/-- Claim C3 (amended): enqueue is idempotent per source — when a
QueueEntry already references the source, it returns that entry with
already_queued = true, creates no second QueueEntry and leaves the state
entirely unchanged, returning immediately without attempting processNext
(no promotion happens and no event is broadcast). -/
theorem C3_amended_enqueue_idempotent (hash : List Nat → String) (fid : Nat) (s : QState)
    (gf : GenFileR) (ex : QueueEntryR)
    (hgf : findGenFile s.genFiles fid = some gf)
    (hfs : (fsLookup s.fs gf.path).isSome = true)
    (hex : s.queue.find? (fun e => e.generated_file_id == fid) = some ex) :
    queue_generated_file hash fid s = (.ok ex.id true, s, []) := by
  obtain ⟨c, hc⟩ := Option.isSome_iff_exists.mp hfs
  simp [queue_generated_file, hgf, hc, hex]

/-- Witness for the amended C3 at the concrete state `sDup`. -/
theorem C3_amended_enqueue_idempotent_witness :
    queue_generated_file hashZero 1 sDup = (.ok qeA.id true, sDup, []) :=
  C3_amended_enqueue_idempotent hashZero 1 sDup gfA qeA (by decide) (by decide) (by decide)

set_option maxRecDepth 8192 in
/-- Claim C4 counterexample: at the concrete state `sDup` the manual
process-next route performs a successful promotion (returns true) yet
broadcasts zero events, not the two the claim requires. -/
theorem C4_manual_route_emits_nothing_counterexample :
    (process_next_in_queue hashZero sDup).1 = true ∧
    (process_next_in_queue hashZero sDup).2.2 = [] := by
  refine ⟨by decide, by decide⟩

/-- Claim C4 (amended): a successful promotion through the auto-trigger
helper emits exactly two events — the queue-lifecycle completion event
followed by the new-source-available event; the manual process-next route
performs the same promotion but emits no events at all, in any branch. -/
theorem C4_amended_promotion_events (hash : List Nat → String) (s : QState)
    (h : (process_next_prompt_queue_item hash s).1 = true) :
    (∃ qid pfid fn,
      (process_next_prompt_queue_item hash s).2.2 =
        [.promptQueueCompleted qid pfid, .promptsFileAdded pfid fn]) ∧
    ∀ s2 : QState, (process_next_in_queue hash s2).2.2 = [] := by
  constructor
  · rcases hr : process_next_prompt_queue_item hash s with ⟨flag, s1, evs⟩
    rw [hr] at h
    simp only at h
    subst h
    unfold process_next_prompt_queue_item at hr
    split at hr
    · simp at hr
    · split at hr
      · simp at hr
      · split at hr
        · simp at hr
        · split at hr
          · simp at hr
          · simp only [Prod.mk.injEq] at hr
            exact ⟨_, _, _, hr.2.2.symm⟩
  · intro s2
    rcases hrt : process_next_in_queue hash s2 with ⟨f2, s3, evs2⟩
    show evs2 = []
    unfold process_next_in_queue at hrt
    split at hrt
    · simp only [Prod.mk.injEq] at hrt
      exact hrt.2.2.symm
    · split at hrt
      · simp only [Prod.mk.injEq] at hrt
        exact hrt.2.2.symm
      · split at hrt
        · simp only [Prod.mk.injEq] at hrt
          exact hrt.2.2.symm
        · split at hrt
          · simp only [Prod.mk.injEq] at hrt
            exact hrt.2.2.symm
          · simp only [Prod.mk.injEq] at hrt
            exact hrt.2.2.symm

/-- Witness for the amended C4 at the concrete state `sDup`. -/
theorem C4_amended_promotion_events_witness :
    (∃ qid pfid fn,
      (process_next_prompt_queue_item hashZero sDup).2.2 =
        [.promptQueueCompleted qid pfid, .promptsFileAdded pfid fn]) ∧
    (process_next_in_queue hashZero sDup).2.2 = [] := by
  have h := C4_amended_promotion_events hashZero sDup (by decide)
  exact ⟨h.1, h.2 sDup⟩

lemma pickMinQueued_mem : ∀ (l : List QueueEntryR) (x : QueueEntryR),
    pickMinQueued l = some x → x ∈ l := by
  intro l
  induction l with
  | nil => intro x h; cases h
  | cons e rest ih =>
    intro x h
    rw [pickMinQueued] at h
    cases hr : pickMinQueued rest with
    | none =>
      rw [hr] at h
      dsimp only at h
      injection h with h
      subst h
      exact List.mem_cons_self _ _
    | some b =>
      rw [hr] at h
      dsimp only at h
      split at h
      · injection h with h
        subst h
        exact List.mem_cons_of_mem _ (ih _ hr)
      · injection h with h
        subst h
        exact List.mem_cons_self _ _

lemma oldestPending_mem_status (q : List QueueEntryR) (qi : QueueEntryR)
    (h : oldestPending q = some qi) : qi ∈ q ∧ qi.status = "pending" := by
  unfold oldestPending at h
  have hmem := pickMinQueued_mem _ _ h
  have hf := List.mem_filter.mp hmem
  refine ⟨hf.1, ?_⟩
  simpa using hf.2

/-- Status evolution through the auto-trigger helper: every PromptsFile of
the post-state either already existed or is `pending`, and every queue row
either already existed, is `pending`, or is `completed` and descends from
a `pending` pre-state row with the same id. -/
lemma processNextItem_statuses (hash : List Nat → String) (s : QState) :
    (∀ pf ∈ (process_next_prompt_queue_item hash s).2.1.promptsFiles,
      pf ∈ s.promptsFiles ∨ pf.status = "pending") ∧
    (∀ e ∈ (process_next_prompt_queue_item hash s).2.1.queue,
      e ∈ s.queue ∨ e.status = "pending" ∨
      (e.status = "completed" ∧ ∃ e0 ∈ s.queue, e0.id = e.id ∧ e0.status = "pending")) := by
  by_cases hp : anyProcessing s = true
  · simp only [process_next_prompt_queue_item, hp, if_true]
    exact ⟨fun pf hpf => Or.inl hpf, fun e he => Or.inl he⟩
  · rcases hq : oldestPending s.queue with _ | qi
    · simp only [process_next_prompt_queue_item, hp, if_false, hq]
      exact ⟨fun pf hpf => Or.inl hpf, fun e he => Or.inl he⟩
    · obtain ⟨hqmem, hqst⟩ := oldestPending_mem_status _ _ hq
      rcases hg : findGenFile s.genFiles qi.generated_file_id with _ | gf
      · simp only [process_next_prompt_queue_item, hp, if_false, hq, hg]
        refine ⟨fun pf hpf => Or.inl hpf, fun e he => ?_⟩
        exact Or.inl (List.mem_of_mem_filter he)
      · rcases hf : fsLookup s.fs gf.path with _ | content
        · simp only [process_next_prompt_queue_item, hp, if_false, hq, hg, hf]
          refine ⟨fun pf hpf => Or.inl hpf, fun e he => ?_⟩
          exact Or.inl (List.mem_of_mem_filter he)
        · simp only [process_next_prompt_queue_item, hp, if_false, hq, hg, hf]
          constructor
          · intro pf hpf
            rcases List.mem_append.mp hpf with h1 | h2
            · exact Or.inl h1
            · right
              rcases List.mem_singleton.mp h2 with rfl
              rfl
          · intro e he
            rcases List.mem_map.mp he with ⟨e0, he0, rfl⟩
            by_cases hid : e0.id = qi.id
            · rw [if_pos hid]
              right
              right
              exact ⟨rfl, qi, hqmem, rfl, hqst⟩
            · rw [if_neg hid]
              exact Or.inl he0

/-- Status evolution through the manual process-next route: identical to
the helper. -/
lemma processNextRoute_statuses (hash : List Nat → String) (s : QState) :
    (∀ pf ∈ (process_next_in_queue hash s).2.1.promptsFiles,
      pf ∈ s.promptsFiles ∨ pf.status = "pending") ∧
    (∀ e ∈ (process_next_in_queue hash s).2.1.queue,
      e ∈ s.queue ∨ e.status = "pending" ∨
      (e.status = "completed" ∧ ∃ e0 ∈ s.queue, e0.id = e.id ∧ e0.status = "pending")) := by
  by_cases hp : anyProcessing s = true
  · simp only [process_next_in_queue, hp, if_true]
    exact ⟨fun pf hpf => Or.inl hpf, fun e he => Or.inl he⟩
  · rcases hq : oldestPending s.queue with _ | qi
    · simp only [process_next_in_queue, hp, if_false, hq]
      exact ⟨fun pf hpf => Or.inl hpf, fun e he => Or.inl he⟩
    · obtain ⟨hqmem, hqst⟩ := oldestPending_mem_status _ _ hq
      rcases hg : findGenFile s.genFiles qi.generated_file_id with _ | gf
      · simp only [process_next_in_queue, hp, if_false, hq, hg]
        refine ⟨fun pf hpf => Or.inl hpf, fun e he => ?_⟩
        exact Or.inl (List.mem_of_mem_filter he)
      · rcases hf : fsLookup s.fs gf.path with _ | content
        · simp only [process_next_in_queue, hp, if_false, hq, hg, hf]
          refine ⟨fun pf hpf => Or.inl hpf, fun e he => ?_⟩
          exact Or.inl (List.mem_of_mem_filter he)
        · simp only [process_next_in_queue, hp, if_false, hq, hg, hf]
          constructor
          · intro pf hpf
            rcases List.mem_append.mp hpf with h1 | h2
            · exact Or.inl h1
            · right
              rcases List.mem_singleton.mp h2 with rfl
              rfl
          · intro e he
            rcases List.mem_map.mp he with ⟨e0, he0, rfl⟩
            by_cases hid : e0.id = qi.id
            · rw [if_pos hid]
              right
              right
              exact ⟨rfl, qi, hqmem, rfl, hqst⟩
            · rw [if_neg hid]
              exact Or.inl he0

/-- Claim C10: every PromptsFile created by queue promotion is created
with status `pending`; no Queue Processor operation (enqueue, either
process-next entry point, remove) ever assigns status `processing` to any
PromptsFile or queue row — queue rows are either pre-existing, freshly
`pending`, or `completed` (and, for the two process-next entry points,
a `completed` row always descends from a `pending` pre-state row with
the same id); remove only deletes rows and touches no PromptsFile.  So
the single-flight gate's `processing` check can only be satisfied by
state set outside these operations. -/
theorem C10_queue_ops_never_assign_processing (hash : List Nat → String)
    (fid qid : Nat) (s : QState) :
    ((∀ pf ∈ (process_next_prompt_queue_item hash s).2.1.promptsFiles,
        pf ∈ s.promptsFiles ∨ pf.status = "pending") ∧
      (∀ e ∈ (process_next_prompt_queue_item hash s).2.1.queue,
        e ∈ s.queue ∨ e.status = "pending" ∨
        (e.status = "completed" ∧ ∃ e0 ∈ s.queue, e0.id = e.id ∧ e0.status = "pending"))) ∧
    ((∀ pf ∈ (process_next_in_queue hash s).2.1.promptsFiles,
        pf ∈ s.promptsFiles ∨ pf.status = "pending") ∧
      (∀ e ∈ (process_next_in_queue hash s).2.1.queue,
        e ∈ s.queue ∨ e.status = "pending" ∨
        (e.status = "completed" ∧ ∃ e0 ∈ s.queue, e0.id = e.id ∧ e0.status = "pending"))) ∧
    ((∀ pf ∈ (queue_generated_file hash fid s).2.1.promptsFiles,
        pf ∈ s.promptsFiles ∨ pf.status = "pending") ∧
      (∀ e ∈ (queue_generated_file hash fid s).2.1.queue,
        e ∈ s.queue ∨ e.status = "pending" ∨ e.status = "completed")) ∧
    ((remove_from_prompt_queue qid s).2.1.promptsFiles = s.promptsFiles ∧
      ∀ e ∈ (remove_from_prompt_queue qid s).2.1.queue, e ∈ s.queue) := by
  refine ⟨processNextItem_statuses hash s, processNextRoute_statuses hash s, ?_, ?_⟩
  · rcases hg : findGenFile s.genFiles fid with _ | gf
    · simp only [queue_generated_file, hg]
      exact ⟨fun pf hpf => Or.inl hpf, fun e he => Or.inl he⟩
    · rcases hf : fsLookup s.fs gf.path with _ | content
      · simp only [queue_generated_file, hg, hf]
        exact ⟨fun pf hpf => Or.inl hpf, fun e he => Or.inl he⟩
      · rcases hx : s.queue.find? (fun e => e.generated_file_id == fid) with _ | ex
        · simp only [queue_generated_file, hg, hf, hx]
          obtain ⟨hpf1, hq1⟩ := processNextItem_statuses hash
            { s with
              queue := s.queue ++
                [{ id := s.nextQueueId, generated_file_id := fid, status := "pending",
                   queued_at := s.now, completed_at := none, prompts_file_id := none }]
              nextQueueId := s.nextQueueId + 1 }
          constructor
          · intro pf hpf
            exact hpf1 pf hpf
          · intro e he
            rcases hq1 e he with h1 | h2 | h3
            · rcases List.mem_append.mp h1 with ha | hb
              · exact Or.inl ha
              · rcases List.mem_singleton.mp hb with rfl
                exact Or.inr (Or.inl rfl)
            · exact Or.inr (Or.inl h2)
            · exact Or.inr (Or.inr h3.1)
        · simp only [queue_generated_file, hg, hf, hx]
          exact ⟨fun pf hpf => Or.inl hpf, fun e he => Or.inl he⟩
  · rcases hx : s.queue.find? (fun e => e.id == qid) with _ | ex
    · simp only [remove_from_prompt_queue, hx]
      exact ⟨trivial, fun e he => he⟩
    · by_cases hst : ex.status = "processing"
      · simp only [remove_from_prompt_queue, hx, hst, if_true]
        exact ⟨trivial, fun e he => he⟩
      · simp only [remove_from_prompt_queue, hx, hst, if_false]
        exact ⟨trivial, fun e he => List.mem_of_mem_filter he⟩

/-- The PromptsFile the helper creates when it promotes `qeA` at `sDup`. -/
def pfPromoted : PromptsFileR :=
  { id := 1, filename := "f.txt", sha256 := "hash", path := promotedPath 5 "f.txt",
    status := "pending" }

/-- The queue row `qeA` after its promotion at `sDup`. -/
def qePromoted : QueueEntryR :=
  { id := 10, generated_file_id := 1, status := "completed", queued_at := 0,
    completed_at := some 5, prompts_file_id := some 1 }

/-- Witness for C10: at the concrete state `sDup`, the PromptsFile and
the completed queue row produced by the helper promotion satisfy the
status-evolution property. -/
theorem C10_queue_ops_never_assign_processing_witness :
    (pfPromoted ∈ sDup.promptsFiles ∨ pfPromoted.status = "pending") ∧
    (qePromoted ∈ sDup.queue ∨ qePromoted.status = "pending" ∨
      (qePromoted.status = "completed" ∧
        ∃ e0 ∈ sDup.queue, e0.id = qePromoted.id ∧ e0.status = "pending")) := by
  have h := C10_queue_ops_never_assign_processing hashZero 1 10 sDup
  exact ⟨h.1.1 _ (by decide), h.1.2 _ (by decide)⟩

/-! ### Claim theorems: the Artifact Cache -/

/-- A concrete image row whose file exists. -/
def zImg : ZImageR := { job_id := 1, path := "data/images/1/001-cat.png", created_at := 0 }

/-- A state in which the aggregate archive was previously built: the three
metadata keys are present and the archive file exists. -/
def zs0 : ZState :=
  { config := [("all_jobs_zip_path", "data/zips/all_jobs.zip"),
               ("all_jobs_zip_sha256", "oldsha"),
               ("all_jobs_zip_built_at", "1")],
    images := [zImg],
    fs := [("data/images/1/001-cat.png", [7, 7]), ("data/zips/all_jobs.zip", [1])],
    now := 2 }

set_option maxRecDepth 8192 in
/-- Claim C2 (code bug): `build_all_jobs_zip` records the aggregate
metadata with bare SQL `UPDATE` statements (though its own comment says
"Update or insert").  While the three config keys exist the build records
the archive path and the hash of the produced bytes, but
`invalidate_all_jobs_cache` deletes those keys, so a rebuild performed
after an invalidation returns a path yet records nothing: the `UPDATE`s
match zero rows and the config store is left without the path and hash
entries, contradicting the claim. -/
theorem C2_metadata_not_recorded_after_invalidate :
    configLookup (build_all_jobs_zip hashZero zs0).2.config "all_jobs_zip_path" =
      some "data/zips/all_jobs.zip" ∧
    configLookup (build_all_jobs_zip hashZero zs0).2.config "all_jobs_zip_sha256" =
      some "hash" ∧
    configLookup (invalidate_all_jobs_cache zs0).config "all_jobs_zip_path" = none ∧
    (build_all_jobs_zip hashZero (invalidate_all_jobs_cache zs0)).1 =
      some "data/zips/all_jobs.zip" ∧
    configLookup (build_all_jobs_zip hashZero (invalidate_all_jobs_cache zs0)).2.config
      "all_jobs_zip_path" = none ∧
    configLookup (build_all_jobs_zip hashZero (invalidate_all_jobs_cache zs0)).2.config
      "all_jobs_zip_sha256" = none := by
  refine ⟨by decide, by decide, by decide, by decide, by decide, by decide⟩
